import Mathlib

/-!
Verification of the Divvy bike dashboard's preprocessing, filtering and
aggregation pipeline (`src/divvy_story_dashboard.py`).

The dashboard reads a CSV into a dataframe, parses the `started_at` /
`ended_at` columns as timestamps (`errors='coerce'`, so unparseable cells
become missing markers), drops rows where either timestamp is missing,
derives `hour`, `day_of_week`, `month`, `year` from `started_at`, applies
up to three equality filters (rider type, weekday, month), and computes
summary, hourly, weekday and geo aggregates from the filtered view.

Timestamps are modelled as seconds since the Unix epoch (a `Nat`; the data
is 2020-2024 trip logs). The `.dt.hour`, `.dt.day_name()`, `.dt.month` and
`.dt.year` accessors are modelled by the standard civil-calendar
computation on that representation.
-/

namespace Divvy

/-- A timestamp: seconds since the Unix epoch (1970-01-01 00:00:00). -/
abbrev Timestamp := Nat

namespace Timestamp

/-- Model of `.dt.hour`: the hour of day, from the seconds-of-day. -/
def hourOf (t : Timestamp) : Nat := t % 86400 / 3600

/-- `calendar.day_name`: the 7 canonical weekday names, Monday first.
The sidebar day filter offers `["All"] + list(calendar.day_name)`. -/
def dayNames : List String :=
  ["Monday", "Tuesday", "Wednesday", "Thursday", "Friday", "Saturday", "Sunday"]

/-- Model of `.dt.day_name()`: 1970-01-01 was a Thursday (index 3 in the
Monday-first list), and weekdays cycle with period 7 days. -/
def dayNameOf (t : Timestamp) : String :=
  dayNames.getD ((t / 86400 + 3) % 7) "Monday"

/-- Civil-from-days computation, step 1: era of the shifted epoch (eras are
400-year cycles of 146097 days; day 0 of era 1719 is 0000-03-01, and
719468 is the day number of 1970-01-01 in that reckoning). -/
def eraOf (t : Timestamp) : Nat := (t / 86400 + 719468) / 146097

/-- Civil-from-days, step 2: day-of-era, in `[0, 146096]`. -/
def doeOf (t : Timestamp) : Nat := (t / 86400 + 719468) % 146097

/-- Civil-from-days, step 3: year-of-era (March-based years), in `[0, 399]`. -/
def yoeOf (t : Timestamp) : Nat :=
  (doeOf t - doeOf t / 1460 + doeOf t / 36524 - doeOf t / 146096) / 365

/-- Civil-from-days, step 4: day-of-year of the March-based year. -/
def doyOf (t : Timestamp) : Nat :=
  doeOf t - (365 * yoeOf t + yoeOf t / 4 - yoeOf t / 100)

/-- Civil-from-days, step 5: March-based month index, in `[0, 11]`. -/
def mpOf (t : Timestamp) : Nat := (5 * doyOf t + 2) / 153

/-- Model of `.dt.month` (1-indexed January..December), by the standard
civil-from-days calendar computation on the day number since the epoch. -/
def monthOf (t : Timestamp) : Nat :=
  if mpOf t < 10 then mpOf t + 3 else mpOf t - 9

/-- Model of `.dt.year`, by the same civil-from-days computation. -/
def yearOf (t : Timestamp) : Nat :=
  if monthOf t ≤ 2 then yoeOf t + eraOf t * 400 + 1 else yoeOf t + eraOf t * 400

theorem hourOf_lt_24 (t : Timestamp) : hourOf t < 24 := by
  unfold hourOf; omega

theorem dayNameOf_mem (t : Timestamp) : dayNameOf t ∈ dayNames := by
  unfold dayNameOf
  have h : (t / 86400 + 3) % 7 < dayNames.length := Nat.mod_lt _ (by decide)
  rw [List.getD_eq_getElem _ _ h]
  exact List.getElem_mem h

theorem monthOf_bounds (t : Timestamp) : 1 ≤ monthOf t ∧ monthOf t ≤ 12 := by
  unfold monthOf mpOf doyOf yoeOf doeOf
  split <;> omega

end Timestamp

/-- One row of the uploaded CSV as it stands after `pd.read_csv` plus the
permissive timestamp parse of lines 49-50 (`pd.to_datetime(...,
errors='coerce')`): a `started_at`/`ended_at` cell that was absent or failed
to parse is the missing marker `none` (pandas `NaT`), not an error. The
`hour`, `day_of_week`, `month`, `year` fields hold whatever the upload may
already have supplied under those column names (`none` when absent), and
`otherCols` the remaining columns, untouched by the pipeline. -/
structure RawRow where
  started_at : Option Timestamp
  ended_at : Option Timestamp
  member_casual : Option String
  start_lat : Option ℚ
  start_lng : Option ℚ
  hour : Option Nat
  day_of_week : Option String
  month : Option Nat
  year : Option Nat
  otherCols : List (String × String)
deriving Repr, DecidableEq

/-- A processed trip record: both timestamps present, derived fields set. -/
structure TripRow where
  started_at : Timestamp
  ended_at : Timestamp
  member_casual : Option String
  start_lat : Option ℚ
  start_lng : Option ℚ
  hour : Nat
  day_of_week : String
  month : Nat
  year : Nat
  otherCols : List (String × String)
deriving Repr, DecidableEq

/-- Lines 51-56 applied to one row: `df.dropna(subset=['started_at',
'ended_at'])` drops the row iff either timestamp is missing; a surviving row
gets `hour`, `day_of_week`, `month`, `year` derived from `started_at`,
overwriting any columns of those names the upload already had, while every
other column is carried over unchanged. -/
def processRow (r : RawRow) : Option TripRow :=
  match r.started_at, r.ended_at with
  | some s, some e =>
      some { started_at := s, ended_at := e,
             member_casual := r.member_casual,
             start_lat := r.start_lat, start_lng := r.start_lng,
             hour := Timestamp.hourOf s,
             day_of_week := Timestamp.dayNameOf s,
             month := Timestamp.monthOf s,
             year := Timestamp.yearOf s,
             otherCols := r.otherCols }
  | _, _ => none

/-- Feature Derivation (lines 49-56) over the whole uploaded table. -/
def featureDerivation (df : List RawRow) : List TripRow :=
  df.filterMap processRow

/-- The sidebar Filter Selection (lines 60-67): a rider type (mandatory, no
"All" option), a day ("All" or a weekday name) and a month ("All" or a month
name). -/
structure FilterSelection where
  rider : String
  day : String
  month : String
deriving Repr, DecidableEq

/-- `list(calendar.month_name)`: element 0 is the empty string, so `.index`
of a month name is its 1-indexed month number. -/
def monthNameList : List String :=
  ["", "January", "February", "March", "April", "May", "June", "July",
   "August", "September", "October", "November", "December"]

/-- Line 74: `month_number = list(calendar.month_name).index(selected_month)`. -/
def monthNumberOf (m : String) : Nat := monthNameList.indexOf m

/-- The Filter Pipeline (lines 70-75): mandatory rider-type equality filter,
then the optional weekday and month equality filters. A pandas boolean mask
`df[df[col] == x]` keeps exactly the rows whose cell equals `x` (a missing
`member_casual` compares unequal), in table order: `List.filter`. -/
def df_filtered (df : List TripRow) (sel : FilterSelection) : List TripRow :=
  let d1 := df.filter (fun r => r.member_casual == some sel.rider)
  let d2 := if sel.day ≠ "All" then d1.filter (fun r => r.day_of_week == sel.day) else d1
  if sel.month ≠ "All" then d2.filter (fun r => r.month == monthNumberOf sel.month) else d2

/-- The mandatory rider-type predicate of line 70. -/
def riderPred (sel : FilterSelection) (r : TripRow) : Bool :=
  r.member_casual == some sel.rider

/-- The optional weekday predicate of lines 71-72 (vacuous when "All"). -/
def dayPred (sel : FilterSelection) (r : TripRow) : Bool :=
  sel.day == "All" || r.day_of_week == sel.day

/-- The optional month predicate of lines 73-75 (vacuous when "All"). -/
def monthPred (sel : FilterSelection) (r : TripRow) : Bool :=
  sel.month == "All" || r.month == monthNumberOf sel.month

/-- Line 79: `total_rides = len(df_filtered)`. -/
def total_rides (v : List TripRow) : Nat := v.length

/-- Line 80: mean of `(ended_at - started_at).dt.total_seconds()` divided by
60. The mean of an empty series is NaN, modelled as `none`; the float
arithmetic on whole seconds is modelled exactly over ℚ. -/
def avg_ride_duration (v : List TripRow) : Option ℚ :=
  if v.length = 0 then none
  else some ((((v.map (fun r => (r.ended_at : ℤ) - (r.started_at : ℤ))).sum : ℚ)
      / (v.length : ℚ)) / 60)

/-- Line 84 renders the average unconditionally through the f-string
`f"{avg_ride_duration:.2f} mins"`: Python formats the NaN of an empty mean
as the text "nan", and a finite value as a two-decimal numeral (modelled as
the rounded count of centi-minutes; the exact digit string of the finite
case is immaterial to the claims). -/
def avgMetricText (a : Option ℚ) : String :=
  (match a with
   | none => "nan"
   | some q => toString (round (q * 100))) ++ " mins"

/-- Lines 89-90 hand `df_filtered['hour']` to the external histogram call
with `nbins=24`; the binning happens inside the plotting library, whose code
is not part of this repository, so the hourly aggregate is modelled at the
spec's contract level: the count of rows per hour over the fixed domain
0..23. -/
def hourlyAggregate (v : List TripRow) : List Nat :=
  (List.range 24).map (fun h => v.countP (fun r => r.hour == h))

/-- Line 96: `value_counts()` lists only values that actually occur, with
their counts; `.reindex(calendar.day_name)` then yields one entry per
weekday name in Monday..Sunday order, with NaN (here `none`) for weekdays
absent from the value counts. -/
def weekdayAggregate (v : List TripRow) : List (Option Nat) :=
  Timestamp.dayNames.map (fun d =>
    if v.countP (fun r => r.day_of_week == d) = 0 then none
    else some (v.countP (fun r => r.day_of_week == d)))

/-- The coordinate pair of a row when both cells are present and non-null. -/
def coordPair (r : TripRow) : Option (ℚ × ℚ) :=
  match r.start_lat, r.start_lng with
  | some a, some b => some (a, b)
  | _, _ => none

/-- Lines 110-112: select the two coordinate columns, `dropna()` (drop rows
where either is null), `.head(1000)` (the first 1000 rows in table order). -/
def map_df (v : List TripRow) : List (ℚ × ℚ) :=
  (v.filterMap coordPair).take 1000

/-- Lines 109-114: the map section computes `map_df` only when both
coordinate columns are in the schema; otherwise it shows a warning instead,
modelled as `none` ("not available"). -/
def geoSection (hasLat hasLng : Bool) (v : List TripRow) : Option (List (ℚ × ℚ)) :=
  if hasLat && hasLng then some (map_df v) else none

/-- Everything one recomputation pass hands to the presentation widgets. -/
structure DashboardOutput where
  total : Nat
  avgDuration : Option ℚ
  hourly : List Nat
  weekday : List (Option Nat)
  geo : Option (List (ℚ × ℚ))
deriving Repr, DecidableEq

/-- One full recomputation pass (lines 49-114): Feature Derivation, Filter
Pipeline, then the four aggregates. `hasLat`/`hasLng` record whether the
uploaded schema contains the `start_lat`/`start_lng` columns. -/
def renderDashboard (hasLat hasLng : Bool) (df : List RawRow)
    (sel : FilterSelection) : DashboardOutput :=
  let v := df_filtered (featureDerivation df) sel
  { total := total_rides v,
    avgDuration := avg_ride_duration v,
    hourly := hourlyAggregate v,
    weekday := weekdayAggregate v,
    geo := geoSection hasLat hasLng v }

/-! Sample data used by witnesses: a member trip starting 2024-07-04
12:34:56 UTC (a Thursday in July), ending ten minutes later. The upload also
carries ill-formed `hour`/`day_of_week`/`month`/`year` columns of its own,
which Feature Derivation must overwrite. -/

/-- A raw uploaded row with both timestamps parseable. -/
def sampleRawA : RawRow :=
  { started_at := some 1720096496, ended_at := some 1720097096,
    member_casual := some "member",
    start_lat := some 41, start_lng := some (-87),
    hour := some 99, day_of_week := some "Funday",
    month := some 99, year := some 1900,
    otherCols := [("ride_id", "A1")] }

/-- A raw uploaded row whose `started_at` failed to parse (`NaT`). -/
def sampleRawBad : RawRow :=
  { started_at := none, ended_at := some 0,
    member_casual := some "casual",
    start_lat := none, start_lng := none,
    hour := none, day_of_week := none, month := none, year := none,
    otherCols := [] }

/-- A processed trip record matching `sampleRawA`. -/
def sampleTripA : TripRow :=
  { started_at := 1720096496, ended_at := 1720097096,
    member_casual := some "member",
    start_lat := some 41, start_lng := some (-87),
    hour := 12, day_of_week := "Thursday", month := 7, year := 2024,
    otherCols := [("ride_id", "A1")] }

/-- The default Filter Selection of a fresh upload of member/casual data:
first rider type, day "All", month "All". -/
def sampleSel : FilterSelection := ⟨"member", "All", "All"⟩

/-- The three filter steps of lines 70-75 amount to one filter by the
conjunction of the rider, day and month predicates. -/
theorem df_filtered_eq_filter (df : List TripRow) (sel : FilterSelection) :
    df_filtered df sel =
      df.filter (fun r => riderPred sel r && (dayPred sel r && monthPred sel r)) := by
  unfold df_filtered riderPred dayPred monthPred
  by_cases hd : sel.day = "All" <;> by_cases hm : sel.month = "All"
  · simp [hd, hm]
  · have hm' : (sel.month == "All") = false := beq_eq_false_iff_ne.mpr hm
    simp [hd, hm, hm', List.filter_filter]
    refine List.filter_congr fun r _ => ?_
    cases r.member_casual == some sel.rider <;>
      cases r.month == monthNumberOf sel.month <;> simp
  · have hd' : (sel.day == "All") = false := beq_eq_false_iff_ne.mpr hd
    simp [hd, hm, hd', List.filter_filter]
    refine List.filter_congr fun r _ => ?_
    cases r.member_casual == some sel.rider <;>
      cases r.day_of_week == sel.day <;> simp
  · have hd' : (sel.day == "All") = false := beq_eq_false_iff_ne.mpr hd
    have hm' : (sel.month == "All") = false := beq_eq_false_iff_ne.mpr hm
    simp [hd, hm, hd', hm', List.filter_filter]
    refine List.filter_congr fun r _ => ?_
    cases r.member_casual == some sel.rider <;>
      cases r.day_of_week == sel.day <;>
        cases r.month == monthNumberOf sel.month <;> simp

/-- Filtering by a list of predicates in sequence is filtering by their
conjunction. -/
theorem foldl_filter_eq_filter_all (ps : List (TripRow → Bool)) (df : List TripRow) :
    ps.foldl (fun d p => d.filter p) df = df.filter (fun r => ps.all (fun p => p r)) := by
  induction ps generalizing df with
  | nil => simp
  | cons p ps ih =>
    rw [List.foldl_cons, ih, List.filter_filter]
    refine List.filter_congr fun r _ => ?_
    rw [List.all_cons]
    exact Bool.and_comm _ _

/-- C1: every record of the Filtered View has the selected rider type
(case-sensitive equality on the `member_casual` cell), matches the selected
day when the day selection is not "All", and matches the 1-indexed number of
the selected month when the month selection is not "All" (the `.index` into
`calendar.month_name` is the 1-indexed value, as the fourth conjunct
records); and the Filtered View is an order-preserving subsequence of the
processed Trip Table. -/
theorem c1_filtered_view_sound (df : List TripRow) (sel : FilterSelection)
    (r : TripRow) (hr : r ∈ df_filtered df sel) :
    r.member_casual = some sel.rider ∧
    (sel.day ≠ "All" → r.day_of_week = sel.day) ∧
    (sel.month ≠ "All" → r.month = monthNumberOf sel.month) ∧
    (∀ i : Fin 13, 1 ≤ (i : Nat) → monthNumberOf (monthNameList.getD i "") = i) ∧
    (df_filtered df sel).Sublist df := by
  rw [df_filtered_eq_filter] at hr ⊢
  have hmem := List.mem_filter.mp hr
  have hp := hmem.2
  simp only [riderPred, dayPred, monthPred, Bool.and_eq_true, Bool.or_eq_true,
    beq_iff_eq] at hp
  obtain ⟨h1, h2, h3⟩ := hp
  refine ⟨h1, fun h => ?_, fun h => ?_, by decide, List.filter_sublist df⟩
  · rcases h2 with h2 | h2
    · exact absurd h2 h
    · exact h2
  · rcases h3 with h3 | h3
    · exact absurd h3 h
    · exact h3

theorem c1_witness :
    sampleTripA ∈ df_filtered [sampleTripA] sampleSel ∧
    (sampleTripA.member_casual = some sampleSel.rider ∧
     (sampleSel.day ≠ "All" → sampleTripA.day_of_week = sampleSel.day) ∧
     (sampleSel.month ≠ "All" → sampleTripA.month = monthNumberOf sampleSel.month) ∧
     (∀ i : Fin 13, 1 ≤ (i : Nat) → monthNumberOf (monthNameList.getD i "") = i) ∧
     (df_filtered [sampleTripA] sampleSel).Sublist [sampleTripA]) :=
  ⟨by decide, c1_filtered_view_sound [sampleTripA] sampleSel sampleTripA (by decide)⟩

/-- C2: applying the rider, day and month filter steps in any order yields
the same Filtered View as the pipeline of lines 70-75 — the three
predicates commute as a pure conjunction. -/
theorem c2_filters_commute (df : List TripRow) (sel : FilterSelection)
    (ps : List (TripRow → Bool))
    (hperm : ps.Perm [riderPred sel, dayPred sel, monthPred sel]) :
    ps.foldl (fun d p => d.filter p) df = df_filtered df sel := by
  rw [foldl_filter_eq_filter_all, df_filtered_eq_filter]
  refine List.filter_congr fun r _ => ?_
  rw [Bool.eq_iff_iff]
  simp only [List.all_eq_true, hperm.mem_iff]
  constructor
  · intro h
    have h1 := h (riderPred sel) (by simp)
    have h2 := h (dayPred sel) (by simp)
    have h3 := h (monthPred sel) (by simp)
    simp [h1, h2, h3]
  · intro h p hp
    simp only [Bool.and_eq_true] at h
    simp only [List.mem_cons, List.not_mem_nil, or_false] at hp
    rcases hp with rfl | rfl | rfl
    · exact h.1
    · exact h.2.1
    · exact h.2.2

theorem c2_witness :
    ([dayPred sampleSel, riderPred sampleSel, monthPred sampleSel].Perm
       [riderPred sampleSel, dayPred sampleSel, monthPred sampleSel]) ∧
    ([dayPred sampleSel, riderPred sampleSel,
        monthPred sampleSel].foldl (fun d p => d.filter p) [sampleTripA] =
      df_filtered [sampleTripA] sampleSel) :=
  ⟨List.Perm.swap _ _ _,
   c2_filters_commute [sampleTripA] sampleSel _ (List.Perm.swap _ _ _)⟩

/-- C3: the pipeline is a pure function, so recomputing Feature Derivation
plus the Filter Pipeline on the same Trip Table and Filter Selection yields
an identical Filtered View (first conjunct, determinism); moreover
re-running the Filter Pipeline on its own output changes nothing
(second conjunct, idempotence of the recomputation). -/
theorem c3_pipeline_idempotent (df : List RawRow) (sel : FilterSelection) :
    df_filtered (featureDerivation df) sel = df_filtered (featureDerivation df) sel ∧
    df_filtered (df_filtered (featureDerivation df) sel) sel =
      df_filtered (featureDerivation df) sel := by
  refine ⟨rfl, ?_⟩
  rw [df_filtered_eq_filter (featureDerivation df) sel, df_filtered_eq_filter,
    List.filter_filter]
  exact List.filter_congr fun r _ => by
    cases riderPred sel r <;> cases dayPred sel r <;> cases monthPred sel r <;> rfl

/-- Summing a pointwise sum of two `Nat`-valued maps splits. -/
theorem sum_map_add {κ : Type} (l : List κ) (f g : κ → Nat) :
    (l.map (fun x => f x + g x)).sum = (l.map f).sum + (l.map g).sum := by
  induction l with
  | nil => rfl
  | cons a l ih => simp only [List.map_cons, List.sum_cons, ih]; omega

/-- The one-hot indicator sums to zero over a key list avoiding `k`. -/
theorem sum_map_indicator_zero {κ : Type} [BEq κ] [LawfulBEq κ]
    (keys : List κ) (k : κ) :
    k ∉ keys → (keys.map (fun d => if k == d then 1 else 0)).sum = 0 := by
  induction keys with
  | nil => intro _; rfl
  | cons d keys ih =>
    intro h
    have hkd : (k == d) = false := beq_eq_false_iff_ne.mpr (by
      intro e; exact h (e ▸ List.mem_cons_self _ _))
    simp [hkd, ih (fun hk => h (List.mem_cons_of_mem _ hk))]

/-- The one-hot indicator sums to one over a duplicate-free key list
containing `k`. -/
theorem sum_map_indicator_one {κ : Type} [BEq κ] [LawfulBEq κ]
    (keys : List κ) (k : κ) :
    k ∈ keys → keys.Nodup → (keys.map (fun d => if k == d then 1 else 0)).sum = 1 := by
  induction keys with
  | nil => intro h _; cases h
  | cons d keys ih =>
    intro hmem hnd
    have hnd' := List.nodup_cons.mp hnd
    rcases List.mem_cons.mp hmem with rfl | hk
    · simp [sum_map_indicator_zero keys k hnd'.1]
    · have hkd : (k == d) = false := beq_eq_false_iff_ne.mpr (by
        rintro rfl; exact hnd'.1 hk)
      simp [hkd, ih hk hnd'.2]

/-- Counting the rows per key over a duplicate-free key list covering every
row's key partitions the rows: the counts sum to the number of rows. -/
theorem sum_map_countP_keys {α κ : Type} [BEq κ] [LawfulBEq κ]
    (keys : List κ) (key : α → κ) (v : List α) (hnd : keys.Nodup) :
    (∀ r ∈ v, key r ∈ keys) →
    (keys.map (fun d => v.countP (fun x => key x == d))).sum = v.length := by
  induction v with
  | nil => intro _; simp
  | cons r v ih =>
    intro hmem
    have hr := hmem r (List.mem_cons_self r v)
    have hv : ∀ x ∈ v, key x ∈ keys := fun x hx => hmem x (List.mem_cons_of_mem r hx)
    have hmap : keys.map (fun d => (r :: v).countP (fun x => key x == d)) =
        keys.map (fun d =>
          v.countP (fun x => key x == d) + (if key r == d then 1 else 0)) :=
      List.map_congr_left fun d _ => List.countP_cons _ _ _
    rw [hmap, sum_map_add, ih hv, sum_map_indicator_one keys (key r) hr hnd]
    simp

/-- Unpacking a successful `processRow`: the surviving record keeps the
parsed timestamps and the untouched columns of the raw row, and its four
derived fields are computed from `started_at`. -/
theorem processRow_eq_some {raw : RawRow} {r : TripRow}
    (h : processRow raw = some r) :
    raw.started_at = some r.started_at ∧ raw.ended_at = some r.ended_at ∧
    r.member_casual = raw.member_casual ∧ r.start_lat = raw.start_lat ∧
    r.start_lng = raw.start_lng ∧ r.otherCols = raw.otherCols ∧
    r.hour = Timestamp.hourOf r.started_at ∧
    r.day_of_week = Timestamp.dayNameOf r.started_at ∧
    r.month = Timestamp.monthOf r.started_at ∧
    r.year = Timestamp.yearOf r.started_at := by
  obtain ⟨s0, e0, mc, la, lg, h0, d0, m0, y0, oc⟩ := raw
  cases s0 with
  | none => exact absurd h (by simp [processRow])
  | some s =>
    cases e0 with
    | none => exact absurd h (by simp [processRow])
    | some e =>
      simp only [processRow] at h
      injection h with h
      subst h
      exact ⟨rfl, rfl, rfl, rfl, rfl, rfl, rfl, rfl, rfl, rfl⟩

/-- Membership in the derived table comes from a raw row that processed to
the member. -/
theorem mem_featureDerivation {df : List RawRow} {r : TripRow}
    (h : r ∈ featureDerivation df) : ∃ raw ∈ df, processRow raw = some r :=
  List.mem_filterMap.mp h

/-- Every record of a Filtered View produced by the full pipeline satisfies
the derived-field invariants. -/
theorem mem_pipeline {df : List RawRow} {sel : FilterSelection} {r : TripRow}
    (h : r ∈ df_filtered (featureDerivation df) sel) :
    r.hour < 24 ∧ r.day_of_week ∈ Timestamp.dayNames ∧
    1 ≤ r.month ∧ r.month ≤ 12 := by
  have hsub : (df_filtered (featureDerivation df) sel).Sublist (featureDerivation df) := by
    rw [df_filtered_eq_filter]; exact List.filter_sublist _
  obtain ⟨raw, _, hp⟩ := mem_featureDerivation (hsub.subset h)
  obtain ⟨_, _, _, _, _, _, hh, hd, hm, _⟩ := processRow_eq_some hp
  refine ⟨?_, ?_, ?_, ?_⟩
  · rw [hh]; exact Timestamp.hourOf_lt_24 _
  · rw [hd]; exact Timestamp.dayNameOf_mem _
  · rw [hm]; exact (Timestamp.monthOf_bounds _).1
  · rw [hm]; exact (Timestamp.monthOf_bounds _).2

/-- C4: Feature Derivation is total over the permissively parsed table
(unparseable timestamp cells are the missing marker `none`, and
`processRow` is a total function, so nothing raises); a raw row missing
either timestamp post-parse is dropped; and every surviving record carries
both timestamps with `hour` in 0..23, `month` in 1..12 and `day_of_week`
one of the 7 canonical weekday names. -/
theorem c4_feature_derivation_invariants (df : List RawRow) :
    (∀ raw ∈ df, (raw.started_at = none ∨ raw.ended_at = none) →
       processRow raw = none) ∧
    (∀ r ∈ featureDerivation df,
       (∃ raw ∈ df, raw.started_at = some r.started_at ∧
          raw.ended_at = some r.ended_at) ∧
       r.hour ≤ 23 ∧ 1 ≤ r.month ∧ r.month ≤ 12 ∧
       r.day_of_week ∈ Timestamp.dayNames) := by
  constructor
  · intro raw _ h
    obtain ⟨s0, e0, mc, la, lg, h0, d0, m0, y0, oc⟩ := raw
    rcases h with h | h <;> simp only at h <;> subst h
    · rfl
    · cases s0 <;> rfl
  · intro r hr
    obtain ⟨raw, hraw, hp⟩ := mem_featureDerivation hr
    obtain ⟨h1, h2, _, _, _, _, hh, hd, hm, _⟩ := processRow_eq_some hp
    refine ⟨⟨raw, hraw, h1, h2⟩, ?_, ?_, ?_, ?_⟩
    · rw [hh]; have := Timestamp.hourOf_lt_24 r.started_at; omega
    · rw [hm]; exact (Timestamp.monthOf_bounds _).1
    · rw [hm]; exact (Timestamp.monthOf_bounds _).2
    · rw [hd]; exact Timestamp.dayNameOf_mem _

theorem c4_witness :
    processRow sampleRawBad = none ∧
    ((∃ raw ∈ [sampleRawA], raw.started_at = some sampleTripA.started_at ∧
        raw.ended_at = some sampleTripA.ended_at) ∧
     sampleTripA.hour ≤ 23 ∧ 1 ≤ sampleTripA.month ∧ sampleTripA.month ≤ 12 ∧
     sampleTripA.day_of_week ∈ Timestamp.dayNames) :=
  ⟨(c4_feature_derivation_invariants [sampleRawBad]).1 sampleRawBad (by decide)
      (Or.inl rfl),
   (c4_feature_derivation_invariants [sampleRawA]).2 sampleTripA (by decide)⟩

/-- C5: the hourly aggregate of any pipeline-produced Filtered View has
exactly 24 entries over the fixed domain 0..23, its entry for hour `h` is
the count of records with that hour (so an hour with no matching records
appears with count 0 rather than being omitted), and the 24 counts sum to
the number of rows of the Filtered View. -/
theorem c5_hourly_aggregate (df : List RawRow) (sel : FilterSelection)
    (v : List TripRow) (hv : v = df_filtered (featureDerivation df) sel) :
    (hourlyAggregate v).length = 24 ∧
    (∀ h : Nat, h < 24 →
       (hourlyAggregate v).getD h 0 = v.countP (fun r => r.hour == h)) ∧
    (hourlyAggregate v).sum = total_rides v := by
  refine ⟨by simp [hourlyAggregate], ?_, ?_⟩
  · intro h hh
    unfold hourlyAggregate
    have hlen : h < ((List.range 24).map
        (fun h => v.countP (fun r => r.hour == h))).length := by simpa using hh
    rw [List.getD_eq_getElem _ _ hlen, List.getElem_map, List.getElem_range]
  · unfold hourlyAggregate total_rides
    refine sum_map_countP_keys _ _ _ (List.nodup_range 24) ?_
    intro r hrv
    rw [List.mem_range]
    subst hv
    exact (mem_pipeline hrv).1

theorem c5_witness :
    (hourlyAggregate (df_filtered (featureDerivation [sampleRawA]) sampleSel)).length
        = 24 ∧
    (hourlyAggregate (df_filtered (featureDerivation [sampleRawA]) sampleSel)).getD 12 0
        = (df_filtered (featureDerivation [sampleRawA]) sampleSel).countP
            (fun r => r.hour == 12) ∧
    (hourlyAggregate (df_filtered (featureDerivation [sampleRawA]) sampleSel)).sum
        = total_rides (df_filtered (featureDerivation [sampleRawA]) sampleSel) :=
  ⟨(c5_hourly_aggregate [sampleRawA] sampleSel _ rfl).1,
   (c5_hourly_aggregate [sampleRawA] sampleSel _ rfl).2.1 12 (by decide),
   (c5_hourly_aggregate [sampleRawA] sampleSel _ rfl).2.2⟩

/-- C6 counterexample: the single surviving trip of `sampleRawA` starts on a
Thursday, so under the default selection no record is a Monday one — yet the
Monday entry (index 0) of the weekday aggregate is the missing marker
(pandas `reindex` fills `NaN` for weekdays absent from `value_counts()`),
not the count 0 the claim requires. -/
theorem c6_counterexample :
    (df_filtered (featureDerivation [sampleRawA]) sampleSel).countP
        (fun r => r.day_of_week == "Monday") = 0 ∧
    (weekdayAggregate (df_filtered (featureDerivation [sampleRawA]) sampleSel)).getD 0
        (some 0) = none := by decide

/-- C6 (amended): the weekday aggregate of any pipeline-produced Filtered
View has exactly 7 entries, one per canonical weekday name in fixed calendar
order Monday..Sunday; the entry of a weekday with matching records is its
count, while a weekday with zero matching records appears as the missing
marker `NaN` (not the count 0); and the present counts sum to the number of
rows of the Filtered View. -/
theorem c6_weekday_aggregate (df : List RawRow) (sel : FilterSelection)
    (v : List TripRow) (hv : v = df_filtered (featureDerivation df) sel) :
    (weekdayAggregate v).length = 7 ∧
    (∀ i : Fin 7,
       (weekdayAggregate v).getD i none =
         (if v.countP (fun r => r.day_of_week == Timestamp.dayNames.getD i "") = 0
          then none
          else some (v.countP
            (fun r => r.day_of_week == Timestamp.dayNames.getD i "")))) ∧
    ((weekdayAggregate v).map (fun e => e.getD 0)).sum = total_rides v := by
  refine ⟨by simp [weekdayAggregate, Timestamp.dayNames], ?_, ?_⟩
  · intro i
    unfold weekdayAggregate
    have hlen : (i : Nat) < (Timestamp.dayNames.map
        (fun d => if v.countP (fun r => r.day_of_week == d) = 0 then none
          else some (v.countP (fun r => r.day_of_week == d)))).length := by
      simp [Timestamp.dayNames]
    rw [List.getD_eq_getElem _ _ hlen, List.getElem_map,
      List.getD_eq_getElem _ _ (by simp [Timestamp.dayNames])]
  · unfold weekdayAggregate total_rides
    rw [List.map_map]
    have hmap : Timestamp.dayNames.map ((fun e => e.getD 0) ∘
        (fun d => if v.countP (fun r => r.day_of_week == d) = 0 then none
          else some (v.countP (fun r => r.day_of_week == d)))) =
        Timestamp.dayNames.map (fun d => v.countP (fun r => r.day_of_week == d)) := by
      refine List.map_congr_left fun d _ => ?_
      by_cases hc : v.countP (fun r => r.day_of_week == d) = 0 <;>
        simp [Function.comp, hc]
    rw [hmap]
    refine sum_map_countP_keys _ _ _ (by decide) ?_
    intro r hrv
    subst hv
    exact (mem_pipeline hrv).2.1

theorem c6_witness :
    (weekdayAggregate (df_filtered (featureDerivation [sampleRawA]) sampleSel)).length
        = 7 ∧
    (weekdayAggregate (df_filtered (featureDerivation [sampleRawA]) sampleSel)).getD 3
        none =
      (if (df_filtered (featureDerivation [sampleRawA]) sampleSel).countP
            (fun r => r.day_of_week == Timestamp.dayNames.getD 3 "") = 0
       then none
       else some ((df_filtered (featureDerivation [sampleRawA]) sampleSel).countP
            (fun r => r.day_of_week == Timestamp.dayNames.getD 3 ""))) ∧
    ((weekdayAggregate (df_filtered (featureDerivation [sampleRawA]) sampleSel)).map
        (fun e => e.getD 0)).sum =
      total_rides (df_filtered (featureDerivation [sampleRawA]) sampleSel) :=
  ⟨(c6_weekday_aggregate [sampleRawA] sampleSel _ rfl).1,
   (c6_weekday_aggregate [sampleRawA] sampleSel _ rfl).2.1 ⟨3, by decide⟩,
   (c6_weekday_aggregate [sampleRawA] sampleSel _ rfl).2.2⟩

/-- The length of `filterMap` is the count of inputs it keeps. -/
theorem length_filterMap_eq_countP {α β : Type} (f : α → Option β) (v : List α) :
    (v.filterMap f).length = v.countP (fun a => (f a).isSome) := by
  induction v with
  | nil => rfl
  | cons a v ih =>
    cases hfa : f a <;>
      simp [List.filterMap_cons, hfa, List.countP_cons, ih]

/-- C7: when the schema has both coordinate columns, the geo aggregate is
computed and consists of exactly `min 1000 k` coordinate pairs, where `k` is
the number of records with both `start_lat` and `start_lng` present and
non-null; entry `i` of the aggregate is entry `i` of the full in-order list
of qualifying pairs — the first qualifying records in table order, not a
random sample. -/
theorem c7_geo_aggregate (v : List TripRow) :
    geoSection true true v = some (map_df v) ∧
    (map_df v).length = min 1000 (v.countP (fun r => (coordPair r).isSome)) ∧
    (∀ i : Nat, i < (map_df v).length →
       (map_df v).getD i (0, 0) = (v.filterMap coordPair).getD i (0, 0)) := by
  refine ⟨rfl, ?_, ?_⟩
  · unfold map_df
    rw [List.length_take, length_filterMap_eq_countP]
  · intro i hi
    unfold map_df at hi ⊢
    have h2 : i < (v.filterMap coordPair).length := by
      rw [List.length_take] at hi; omega
    rw [List.getD_eq_getElem _ _ hi, List.getD_eq_getElem _ _ h2,
      List.getElem_take]

theorem c7_witness :
    geoSection true true (df_filtered (featureDerivation [sampleRawA]) sampleSel) =
      some (map_df (df_filtered (featureDerivation [sampleRawA]) sampleSel)) ∧
    (map_df (df_filtered (featureDerivation [sampleRawA]) sampleSel)).length =
      min 1000 ((df_filtered (featureDerivation [sampleRawA]) sampleSel).countP
        (fun r => (coordPair r).isSome)) ∧
    (map_df (df_filtered (featureDerivation [sampleRawA]) sampleSel)).getD 0 (0, 0) =
      ((df_filtered (featureDerivation [sampleRawA]) sampleSel).filterMap
        coordPair).getD 0 (0, 0) :=
  ⟨(c7_geo_aggregate (df_filtered (featureDerivation [sampleRawA]) sampleSel)).1,
   (c7_geo_aggregate (df_filtered (featureDerivation [sampleRawA]) sampleSel)).2.1,
   (c7_geo_aggregate (df_filtered (featureDerivation [sampleRawA]) sampleSel)).2.2 0
     (by decide)⟩

/-- C8: when the uploaded schema lacks `start_lat` or `start_lng`, the map
section signals "not available" (`none`) instead of computing the geo
aggregate, while the summary, hourly and weekday aggregates are exactly
those computed with the columns present — the missing optional columns
degrade only the geo aggregate. -/
theorem c8_missing_geo_columns (hasLat hasLng : Bool) (df : List RawRow)
    (sel : FilterSelection) (h : hasLat = false ∨ hasLng = false) :
    (renderDashboard hasLat hasLng df sel).geo = none ∧
    (renderDashboard hasLat hasLng df sel).total =
      (renderDashboard true true df sel).total ∧
    (renderDashboard hasLat hasLng df sel).avgDuration =
      (renderDashboard true true df sel).avgDuration ∧
    (renderDashboard hasLat hasLng df sel).hourly =
      (renderDashboard true true df sel).hourly ∧
    (renderDashboard hasLat hasLng df sel).weekday =
      (renderDashboard true true df sel).weekday := by
  unfold renderDashboard geoSection
  rcases h with rfl | rfl
  · exact ⟨rfl, rfl, rfl, rfl, rfl⟩
  · cases hasLat <;> exact ⟨rfl, rfl, rfl, rfl, rfl⟩

theorem c8_witness :
    (renderDashboard false true [sampleRawA] sampleSel).geo = none ∧
    (renderDashboard false true [sampleRawA] sampleSel).total =
      (renderDashboard true true [sampleRawA] sampleSel).total ∧
    (renderDashboard false true [sampleRawA] sampleSel).avgDuration =
      (renderDashboard true true [sampleRawA] sampleSel).avgDuration ∧
    (renderDashboard false true [sampleRawA] sampleSel).hourly =
      (renderDashboard true true [sampleRawA] sampleSel).hourly ∧
    (renderDashboard false true [sampleRawA] sampleSel).weekday =
      (renderDashboard true true [sampleRawA] sampleSel).weekday :=
  c8_missing_geo_columns false true [sampleRawA] sampleSel (Or.inl rfl)

/-- The spec's caller obligation for the empty average, in the spec's own
words: a caller that "handles" the no-value average "rather than display"
it shows something other than the raw rendering of the NaN through the
unconditional numeric format path of line 84. -/
def callerHandlesEmptyAvg : Prop := avgMetricText none ≠ "nan mins"

/-- C9 counterexample: selecting rider "member" with day "Saturday" on the
single-Thursday-trip upload empties the Filtered View; the average is then
the no-value NaN (`none`) as claimed, but the caller of line 84 does not
handle it — the metric renders through the same unconditional f-string and
displays "nan mins". -/
theorem c9_counterexample :
    avg_ride_duration (df_filtered (featureDerivation [sampleRawA])
        ⟨"member", "Saturday", "All"⟩) = none ∧
    avgMetricText (avg_ride_duration (df_filtered (featureDerivation [sampleRawA])
        ⟨"member", "Saturday", "All"⟩)) = "nan mins" ∧
    ¬ callerHandlesEmptyAvg :=
  ⟨by decide, by decide, fun hch => hch (by decide)⟩

/-- C9 (amended): on a nonempty Filtered View the summary average is the
mean of the per-record `(ended_at - started_at)` in seconds divided by 60;
on an empty Filtered View it is the no-value marker NaN (`none`), not zero —
but the caller does not special-case it: the metric text of line 84 is the
same unconditional f-string rendering, which displays "nan mins". -/
theorem c9_avg_duration (v : List TripRow) :
    (v ≠ [] → avg_ride_duration v =
       some ((((v.map (fun r => ((r.ended_at : ℤ) - (r.started_at : ℤ)))).sum : ℚ)
          / (v.length : ℚ)) / 60)) ∧
    (v = [] → avg_ride_duration v = none ∧
       avgMetricText (avg_ride_duration v) = "nan mins") := by
  constructor
  · intro hne
    unfold avg_ride_duration
    rw [if_neg (fun h => hne (List.length_eq_zero.mp h))]
  · intro he
    subst he
    exact ⟨rfl, rfl⟩

theorem c9_witness :
    (avg_ride_duration [sampleTripA] =
       some (((([sampleTripA].map
           (fun r => ((r.ended_at : ℤ) - (r.started_at : ℤ)))).sum : ℚ)
          / (([sampleTripA] : List TripRow).length : ℚ)) / 60)) ∧
    (avg_ride_duration ([] : List TripRow) = none ∧
     avgMetricText (avg_ride_duration ([] : List TripRow)) = "nan mins") :=
  ⟨(c9_avg_duration [sampleTripA]).1 (by decide),
   (c9_avg_duration ([] : List TripRow)).2 rfl⟩

/-- C10: Feature Derivation overwrites the six columns `started_at`,
`ended_at`, `hour`, `day_of_week`, `month`, `year`: every surviving record's
timestamps are the parsed values of some uploaded row, its four temporal
fields are derived from the parsed `started_at`, the remaining columns
(`member_casual`, coordinates, everything else) are carried over unchanged,
and the result of processing a row is independent of whatever the upload
already supplied under the four derived column names. -/
theorem c10_overwrite_and_frame (df : List RawRow) (r : TripRow)
    (h : r ∈ featureDerivation df) :
    (∃ raw ∈ df, raw.started_at = some r.started_at ∧
       raw.ended_at = some r.ended_at ∧ r.member_casual = raw.member_casual ∧
       r.start_lat = raw.start_lat ∧ r.start_lng = raw.start_lng ∧
       r.otherCols = raw.otherCols) ∧
    r.hour = Timestamp.hourOf r.started_at ∧
    r.day_of_week = Timestamp.dayNameOf r.started_at ∧
    r.month = Timestamp.monthOf r.started_at ∧
    r.year = Timestamp.yearOf r.started_at ∧
    (∀ (raw : RawRow) (h0 : Option Nat) (d0 : Option String)
       (m0 y0 : Option Nat),
       processRow { raw with hour := h0, day_of_week := d0, month := m0, year := y0 } = processRow raw) := by
  obtain ⟨raw, hraw, hp⟩ := mem_featureDerivation h
  obtain ⟨h1, h2, h3, h4, h5, h6, hh, hd, hm, hy⟩ := processRow_eq_some hp
  refine ⟨⟨raw, hraw, h1, h2, h3, h4, h5, h6⟩, hh, hd, hm, hy, ?_⟩
  intro raw' h0 d0 m0 y0
  obtain ⟨s0, e0, mc, la, lg, hh0, dd0, mm0, yy0, oc⟩ := raw'
  rfl

theorem c10_witness :
    (∃ raw ∈ [sampleRawA], raw.started_at = some sampleTripA.started_at ∧
       raw.ended_at = some sampleTripA.ended_at ∧
       sampleTripA.member_casual = raw.member_casual ∧
       sampleTripA.start_lat = raw.start_lat ∧
       sampleTripA.start_lng = raw.start_lng ∧
       sampleTripA.otherCols = raw.otherCols) ∧
    sampleTripA.hour = Timestamp.hourOf sampleTripA.started_at ∧
    sampleTripA.day_of_week = Timestamp.dayNameOf sampleTripA.started_at ∧
    sampleTripA.month = Timestamp.monthOf sampleTripA.started_at ∧
    sampleTripA.year = Timestamp.yearOf sampleTripA.started_at ∧
    processRow { sampleRawBad with hour := some 5, day_of_week := some "Monday", month := some 1, year := some 2000 } = processRow sampleRawBad :=
  ⟨(c10_overwrite_and_frame [sampleRawA] sampleTripA (by decide)).1,
   (c10_overwrite_and_frame [sampleRawA] sampleTripA (by decide)).2.1,
   (c10_overwrite_and_frame [sampleRawA] sampleTripA (by decide)).2.2.1,
   (c10_overwrite_and_frame [sampleRawA] sampleTripA (by decide)).2.2.2.1,
   (c10_overwrite_and_frame [sampleRawA] sampleTripA (by decide)).2.2.2.2.1,
   (c10_overwrite_and_frame [sampleRawA] sampleTripA (by decide)).2.2.2.2.2
     sampleRawBad (some 5) (some "Monday") (some 1) (some 2000)⟩

end Divvy
